import Mathlib

/-!
Verification of the mind-llm orchestration platform against its
natural-language specification.

The definitions below are shallow embeddings of the repository's code:

* the chat context mediation of
  `frontend/src/components/ChatPlayground.jsx` (`handleStreamingResponse`,
  `estimateTokens`, the truncation branch and the `safeMaxTokens`
  computation);
* the reconciliation script `sync_redis.sh` (stale-entry cleanup,
  catalog lookup, reverse-proxy route generation);
* the API-key listing display of
  `frontend/src/components/ApiKeyManager.jsx` (`maskKey` and the
  visibility toggle).

Machine integers of the source (JS numbers used as integers) are modelled
as `Int` and `Nat`; message contents are Lean strings and the source's
`content.length` is `String.length`.
-/

/-- A chat message as used by the playground: a role and a content string. -/
structure Message where
  role : String
  content : String
deriving DecidableEq, Repr

/-- Token estimate of a message list, from `ChatPlayground.jsx`:
`msgs.reduce((sum, msg) => sum + Math.ceil(msg.content.length / 4), 0)`;
`Math.ceil(n / 4)` on a natural number is `(n + 3) / 4`. -/
def estimateTokens (msgs : List Message) : Nat :=
  msgs.foldl (fun sum msg => sum + (msg.content.length + 3) / 4) 0

/-- Modelled from the spec: the per-message estimate the spec sentence
describes, `ceil(len(content) / 4) + 4` (4 tokens of role overhead per
message), summed over the list.  The playground code under `src/` has no
role overhead; this definition exists only to compare the two. -/
def estimateTokensSpec (msgs : List Message) : Nat :=
  msgs.foldl (fun sum msg => sum + ((msg.content.length + 3) / 4 + 4)) 0

/-- Context window used by the playground chat path
(`const modelMaxContext = 2048` in `ChatPlayground.jsx`). -/
def modelMaxContext : Int := 2048

/-- Message list assembled by `handleStreamingResponse`:
`[{role:'system', content:systemPrompt}, ...messages.filter(m => m.role !== 'system'), userMessage]`. -/
def mkAllMessages (systemPrompt : String) (messages : List Message)
    (userMessage : Message) : List Message :=
  { role := "system", content := systemPrompt } ::
    (messages.filter (fun m => m.role != "system") ++ [userMessage])

/-- Last `n` elements of a list, the JS `slice(-n)` for `1 ≤ n ≤ length`. -/
def takeLast (n : Nat) (l : List Message) : List Message :=
  l.drop (l.length - n)

/-- Initial kept list of the truncation branch:
`[allMessages[0], ...allMessages.slice(-(Math.min(10, allMessages.length - 1)))]`.
The list built by `mkAllMessages` is always nonempty, so the `[]` case is
unreachable on the code path. -/
def initialKept (all : List Message) : List Message :=
  match all with
  | [] => []
  | m0 :: _ => m0 :: takeLast (min 10 (all.length - 1)) all

/-- The truncation loop of `handleStreamingResponse`:
`while (estimateTokens(messagesToSend) + maxTokens > modelMaxContext - 50 && messagesToSend.length > 2) messagesToSend.splice(1, 1)`. -/
def dropLoop (maxTokens : Int) (msgs : List Message) : List Message :=
  if h : (estimateTokens msgs : Int) + maxTokens > modelMaxContext - 50 ∧
      msgs.length > 2 then
    dropLoop maxTokens (msgs.eraseIdx 1)
  else msgs
termination_by msgs.length
decreasing_by
  have h2 := h.2
  rw [List.length_eraseIdx]
  split <;> omega

/-- Number of iterations the truncation loop performs. -/
def dropLoopCount (maxTokens : Int) (msgs : List Message) : Nat :=
  if h : (estimateTokens msgs : Int) + maxTokens > modelMaxContext - 50 ∧
      msgs.length > 2 then
    dropLoopCount maxTokens (msgs.eraseIdx 1) + 1
  else 0
termination_by msgs.length
decreasing_by
  have h2 := h.2
  rw [List.length_eraseIdx]
  split <;> omega

/-- Outcome of the chat-path context mediation: the message list put in the
request body, the `max_tokens` field sent, and the `contextTruncated`
flag. -/
structure MediatedRequest where
  messagesToSend : List Message
  maxTokensSent : Int
  contextTruncated : Bool
deriving DecidableEq, Repr

/-- The context mediation of `handleStreamingResponse`
(`ChatPlayground.jsx`): if the estimate of the full list plus `maxTokens`
exceeds `modelMaxContext - 50`, keep the first message plus the last
`min(10, length - 1)` messages, run the drop loop, and set the truncated
flag; in both branches send
`max_tokens = Math.min(maxTokens, modelMaxContext - inputTokens - 50)`
with `inputTokens` estimated on the final list. -/
def mediate (systemPrompt : String) (messages : List Message)
    (userMessage : Message) (maxTokens : Int) : MediatedRequest :=
  let allMessages := mkAllMessages systemPrompt messages userMessage
  let estimatedTokens := estimateTokens allMessages
  if (estimatedTokens : Int) + maxTokens > modelMaxContext - 50 then
    let kept := initialKept allMessages
    let finalMsgs := dropLoop maxTokens kept
    let inputTokens := estimateTokens finalMsgs
    { messagesToSend := finalMsgs
      maxTokensSent := min maxTokens (modelMaxContext - inputTokens - 50)
      contextTruncated := true }
  else
    let inputTokens := estimateTokens allMessages
    { messagesToSend := allMessages
      maxTokensSent := min maxTokens (modelMaxContext - inputTokens - 50)
      contextTruncated := false }

/-- Modelled from the spec: the effective token budget the spec describes,
`R = min(request.max_tokens or default, floor(W/2))`.  The playground code
under `src/` applies no `floor(W/2)` cap; this definition exists only to
compare the two. -/
def effectiveBudgetSpec (maxTokens W : Int) : Int :=
  min maxTokens (W / 2)

/-- Modelled from the spec: the shrunk budget the spec describes for the
overflow case, `max(64, W - input_tokens - B)`.  The playground code under
`src/` has no such floor; this definition exists only to compare the
two. -/
def shrunkBudgetSpec (W inputTokens B : Int) : Int :=
  max 64 (W - inputTokens - B)

/-- A content string of `n` identical characters, used to build concrete
requests of a chosen estimated size. -/
def mkContent (n : Nat) : String :=
  String.mk (List.replicate n 'a')

/-- Reserved container name `MIND_MODEL_{abbr}` used by `sync_redis.sh`
(`CONTAINER_NAME="MIND_MODEL_$MODEL_ABBR"`). -/
def containerNameOf (abbr : String) : String := "MIND_MODEL_" ++ abbr

/-- A stored model record as kept under the Redis `model:{abbr}` key;
only the fields the reconciliation claims mention. -/
structure StoreEntry where
  abbr : String
  status : String
deriving DecidableEq, Repr

/-- Records deleted by one pass of `sync_redis.sh`: when no model container
is running, every `model:*` key is deleted (clear-all branch); otherwise
every key whose `MIND_MODEL_{abbr}` container is not among the running
containers is deleted (stale-entry cleanup).  The script reads no status
field and holds no lock. -/
def reconcileDeletes (running : List String) (stored : List StoreEntry) :
    List StoreEntry :=
  if running.isEmpty then stored
  else stored.filter (fun e => !(running.contains (containerNameOf e.abbr)))

/-- An entry of the predefined catalog `models.json`. -/
structure CatalogEntry where
  abbr : String
  name : String
  mtype : String
deriving DecidableEq, Repr

/-- Catalog lookup of `sync_redis.sh`: scan `predefined_models` in order;
on an `abbr` match return the container's model name (when nonempty, else
the catalog name) and the entry's type; otherwise, when the container's
model name is nonempty and equals the entry's name, return that name and
type; if no entry matches, return the model name with type `unknown`. -/
def lookupModelInfo : List CatalogEntry → String → String → String × String
  | [], _, modelName => (modelName, "unknown")
  | entry :: rest, abbr, modelName =>
    if entry.abbr == abbr then
      (if modelName != "" then modelName else entry.name, entry.mtype)
    else if modelName != "" && entry.name == modelName then
      (entry.name, entry.mtype)
    else lookupModelInfo rest abbr modelName

/-- A model record as written by the reconciler's `HSET model:{abbr}`. -/
structure ModelRecord where
  abbr : String
  name : String
  mtype : String
  status : String
  container : String
  port : String
  endpoint : String
deriving DecidableEq, Repr

/-- Processing of one running container by `sync_redis.sh`: look the model
up in the catalog; when the type resolves to `unknown`, warn and skip
(`continue`) without writing a record; otherwise upsert a record with
`status = running`, the container name, port 8000 and the public
endpoint. -/
def reconcileContainer (catalog : List CatalogEntry) (abbr modelName : String) :
    Option ModelRecord :=
  let info := lookupModelInfo catalog abbr modelName
  if info.2 == "unknown" then none
  else some { abbr := abbr, name := info.1, mtype := info.2, status := "running",
              container := containerNameOf abbr, port := "8000",
              endpoint := "/api/v1/" ++ abbr }

/-- One `location` block of the generated reverse-proxy include file,
keeping the fields the routing claims mention. -/
structure LocationBlock where
  modelAbbr : String
  exactMatch : Bool
  path : String
  proxyPass : String
  readTimeoutSecs : Nat
  sendTimeoutSecs : Nat
deriving DecidableEq, Repr

/-- The `location = /api/v1/{abbr}/chat/completions` block emitted by
`sync_redis.sh`, proxied to the orchestrator's context-mediated endpoint
with 300 s read and send timeouts. -/
def chatLocationBlock (abbr : String) : LocationBlock :=
  { modelAbbr := abbr
    exactMatch := true
    path := "/api/v1/" ++ abbr ++ "/chat/completions"
    proxyPass := "http://orchestrator/api/v1/" ++ abbr ++ "/chat/completions"
    readTimeoutSecs := 300
    sendTimeoutSecs := 300 }

/-- The `location /api/v1/{abbr}/` block emitted by `sync_redis.sh`,
proxied to the model's container on port 8000 with the path rewritten to
the engine's `/v1/` prefix, with 300 s read and send timeouts. -/
def engineLocationBlock (abbr : String) : LocationBlock :=
  { modelAbbr := abbr
    exactMatch := false
    path := "/api/v1/" ++ abbr ++ "/"
    proxyPass := "http://" ++ containerNameOf abbr ++ ":8000/v1/"
    readTimeoutSecs := 300
    sendTimeoutSecs := 300 }

/-- The two blocks written per running model by the route-generation loop. -/
def modelRouteBlocks (abbr : String) : List LocationBlock :=
  [chatLocationBlock abbr, engineLocationBlock abbr]

/-- The whole generated include file, as the block list produced by
iterating over the running containers. -/
def generateRoutes (runningAbbrs : List String) : List LocationBlock :=
  runningAbbrs.flatMap modelRouteBlocks

/-- An API key entry as consumed by the listing UI of `ApiKeyManager.jsx`. -/
structure ApiKeyEntry where
  full_key : String
  key : String
  name : String
deriving DecidableEq, Repr

/-- The `maskKey` helper of `ApiKeyManager.jsx`: an empty key renders as
eight bullets, otherwise the first eight characters followed by sixteen
bullets. -/
def maskKey (key : String) : String :=
  if key = "" then "••••••••"
  else key.take 8 ++ "••••••••••••••••"

/-- The key text rendered by the listing of `ApiKeyManager.jsx`:
`visibleKeys.has(apiKey.full_key) ? apiKey.full_key : maskKey(apiKey.full_key || apiKey.key)`. -/
def displayedKeyText (visibleKeys : List String) (entry : ApiKeyEntry) : String :=
  if visibleKeys.contains entry.full_key then entry.full_key
  else maskKey (if entry.full_key != "" then entry.full_key else entry.key)

/-- Helper: `mkContent n` has length `n`. -/
theorem length_mkContent (n : Nat) : (mkContent n).length = n := by
  simp [mkContent, String.length]

/-- Helper: erasing index 1 shortens a list of more than two elements by
exactly one. -/
theorem length_eraseIdx_one (msgs : List Message) (h : 2 < msgs.length) :
    (msgs.eraseIdx 1).length + 1 = msgs.length := by
  match msgs with
  | m0 :: m1 :: rest => simp [List.eraseIdx]

/-- Helper: the drop loop never touches the head of the list. -/
theorem dropLoop_head (R : Int) (msgs : List Message) :
    (dropLoop R msgs).head? = msgs.head? := by
  induction msgs using dropLoop.induct R with
  | case1 msgs h ih =>
      rw [dropLoop, dif_pos h, ih]
      match msgs, h.2 with
      | m0 :: m1 :: rest, _ => simp [List.eraseIdx]
  | case2 msgs h => rw [dropLoop, dif_neg h]

/-- Helper: `takeLast` ignores a extra head element when it asks for no
more than the tail. -/
theorem takeLast_cons (m : Message) (l : List Message) (k : Nat)
    (h : k ≤ l.length) : takeLast k (m :: l) = takeLast k l := by
  unfold takeLast
  simp only [List.length_cons]
  rw [show l.length + 1 - k = (l.length - k) + 1 by omega]
  rfl

/-- Helper: route generation unfolds one container at a time. -/
theorem generateRoutes_cons (x : String) (xs : List String) :
    generateRoutes (x :: xs) = modelRouteBlocks x ++ generateRoutes xs := by
  simp [generateRoutes]

/-- Helper: no generated block carries an abbr outside the running list. -/
theorem generateRoutes_filter_nil (abbr : String) (l : List String)
    (h : abbr ∉ l) :
    (generateRoutes l).filter (fun b => b.modelAbbr == abbr) = [] := by
  induction l with
  | nil => rfl
  | cons x xs ih =>
    have hx : x ≠ abbr := fun e => h (by simp [e])
    have hxs : abbr ∉ xs := fun hm => h (by simp [hm])
    rw [generateRoutes_cons, List.filter_append, ih hxs]
    simp [modelRouteBlocks, chatLocationBlock, engineLocationBlock,
      List.filter_cons, hx]

/-- Helper: the catalog lookup resolves to type `unknown` exactly when no
entry matches the abbr and none matches the (nonempty) model name, as long
as the catalog itself contains no entry typed `unknown`. -/
theorem lookup_unknown_iff (catalog : List CatalogEntry)
    (abbr modelName : String)
    (hcat : ∀ m ∈ catalog, m.mtype ≠ "unknown") :
    (lookupModelInfo catalog abbr modelName).2 = "unknown" ↔
      ∀ m ∈ catalog, m.abbr ≠ abbr ∧ (modelName = "" ∨ m.name ≠ modelName) := by
  induction catalog with
  | nil => simp [lookupModelInfo]
  | cons entry rest ih =>
    have hent : entry.mtype ≠ "unknown" := hcat entry (by simp)
    have hrest : ∀ m ∈ rest, m.mtype ≠ "unknown" := fun m hm => hcat m (by simp [hm])
    unfold lookupModelInfo
    by_cases h1 : entry.abbr = abbr
    · rw [if_pos (by simpa using h1)]
      simp [hent, h1]
    · rw [if_neg (by simpa using h1)]
      by_cases h2 : modelName ≠ "" ∧ entry.name = modelName
      · rw [if_pos (by simp [h2.1, h2.2])]
        simp only
        constructor
        · intro hu; exact absurd hu hent
        · intro hall
          rcases (hall entry (by simp)).2 with he | hn
          · exact absurd he h2.1
          · exact absurd h2.2 hn
      · rw [if_neg (by
          simp only [Bool.and_eq_true, bne_iff_ne, beq_iff_eq]
          intro hc
          exact h2 ⟨hc.1, hc.2⟩)]
        rw [ih hrest]
        constructor
        · intro hall m hm
          rcases List.mem_cons.mp hm with he | hmr
          · subst he
            refine ⟨h1, ?_⟩
            by_cases hm0 : modelName = ""
            · exact Or.inl hm0
            · exact Or.inr fun hn => h2 ⟨hm0, hn⟩
          · exact hall m hmr
        · intro hall m hm
          exact hall m (by simp [hm])

/-- Claim C1: for every mediated chat request, the estimated token count of
the forwarded message list plus the effective `max_tokens` plus the
50-token buffer is at most the model's context window (2048 in the
playground); the context-truncated flag is set to true exactly when the
request required truncation, i.e. when the full list's estimate plus the
requested `max_tokens` plus the buffer exceeded the window. -/
theorem chat_budget_invariant (sp : String) (ms : List Message)
    (um : Message) (R : Int) :
    (estimateTokens (mediate sp ms um R).messagesToSend : Int)
        + (mediate sp ms um R).maxTokensSent + 50 ≤ modelMaxContext
    ∧ ((mediate sp ms um R).contextTruncated = true ↔
        (estimateTokens (mkAllMessages sp ms um) : Int) + R + 50
          > modelMaxContext) := by
  unfold mediate
  dsimp only
  split
  next h =>
    refine ⟨?_, ?_⟩
    · simp only
      have hm := min_le_right R
        (modelMaxContext -
          (estimateTokens (dropLoop R (initialKept (mkAllMessages sp ms um))) : Int) - 50)
      omega
    · simp only
      constructor
      · intro _; omega
      · intro _; trivial
  next h =>
    refine ⟨?_, ?_⟩
    · simp only
      have hm := min_le_right R
        (modelMaxContext - (estimateTokens (mkAllMessages sp ms um) : Int) - 50)
      omega
    · simp only
      constructor
      · intro hc; simp at hc
      · intro hc; exact absurd hc (by omega)

/-- Claim C2, counterexample: the code's estimate of a single four-character
user message is 1 token, while the claimed formula with the 4-token role
overhead gives 5. -/
theorem estimate_role_overhead_counterexample :
    estimateTokens [{ role := "user", content := "abcd" }] = 1 ∧
    estimateTokensSpec [{ role := "user", content := "abcd" }] = 5 ∧
    (1 : Nat) ≠ 5 := by decide

/-- Claim C2, amended: the input token count is estimated per message as
`ceil(len(content) / 4)` with no role overhead, and the per-message
estimates are summed. -/
theorem estimateTokens_sums_per_message (msgs : List Message) :
    estimateTokens msgs
      = (msgs.map (fun m => (m.content.length + 3) / 4)).sum := by
  have aux : ∀ (l : List Message) (a : Nat),
      l.foldl (fun sum msg => sum + (msg.content.length + 3) / 4) a
        = a + (l.map (fun m => (m.content.length + 3) / 4)).sum := by
    intro l
    induction l with
    | nil => intro a; simp
    | cons x xs ih => intro a; simp [ih, Nat.add_assoc]
  simpa [estimateTokens] using aux msgs 0

/-- Claim C3: on the truncation path, the head of the forwarded list is
preserved exactly when its role is `system` (in this code path the head is
always the system message, so both sides hold); the kept set is the pinned
head plus the last `min(10, len - 1)` non-system messages; and each loop
iteration, taken while the kept estimate plus `R` plus the 50-token buffer
exceeds the window with more than two messages remaining, removes exactly
the oldest non-system message. -/
theorem truncation_path_structure (sp : String) (ms : List Message)
    (um : Message) (R : Int) (m0 m1 : Message) (rest : List Message)
    (hum : um.role ≠ "system")
    (htr : (estimateTokens (mkAllMessages sp ms um) : Int) + R + 50
      > modelMaxContext)
    (hm0 : m0.role = "system") (hm1 : m1.role ≠ "system")
    (hbudget : (estimateTokens (m0 :: m1 :: rest) : Int) + R + 50
      > modelMaxContext)
    (hrest : rest ≠ []) :
    ((mediate sp ms um R).messagesToSend.head? = (mkAllMessages sp ms um).head?
      ↔ (mkAllMessages sp ms um).head?.map Message.role = some "system")
    ∧ initialKept (mkAllMessages sp ms um)
        = { role := "system", content := sp } ::
            takeLast (min 10 ((mkAllMessages sp ms um).length - 1))
              ((mkAllMessages sp ms um).filter (fun m => m.role != "system"))
    ∧ dropLoop R (m0 :: m1 :: rest) = dropLoop R (m0 :: rest)
    ∧ (m0 :: m1 :: rest).find? (fun m => m.role != "system") = some m1 := by
  have hcond : (estimateTokens (mkAllMessages sp ms um) : Int) + R
      > modelMaxContext - 50 := by omega
  refine ⟨?_, ?_, ?_, ?_⟩
  · unfold mediate
    dsimp only
    rw [if_pos hcond]
    dsimp only
    rw [dropLoop_head]
    unfold initialKept mkAllMessages
    simp
  · unfold initialKept mkAllMessages
    dsimp only
    have hfil : List.filter (fun m => m.role != "system")
        ({ role := "system", content := sp } ::
          (List.filter (fun m => m.role != "system") ms ++ [um]))
        = List.filter (fun m => m.role != "system") ms ++ [um] := by
      simp [List.filter_cons, List.filter_append, List.filter_filter, hum]
    rw [hfil]
    simp only [List.length_cons, Nat.add_sub_cancel]
    rw [takeLast_cons _ _ _ (by omega)]
  · have hc2 : (estimateTokens (m0 :: m1 :: rest) : Int) + R
        > modelMaxContext - 50 ∧ (m0 :: m1 :: rest).length > 2 := by
      have hr : rest.length ≥ 1 := List.length_pos.mpr hrest
      refine ⟨by omega, ?_⟩
      simp only [List.length_cons]
      omega
    rw [dropLoop, dif_pos hc2]
    rfl
  · have h0 : (m0.role != "system") = false := by simp [hm0]
    have h1 : (m1.role != "system") = true := by simp [hm1]
    simp [List.find?, h0, h1]

/-- Claim C3, witness: the truncation-path theorem applied to a concrete
over-budget request and a concrete loop state. -/
theorem truncation_path_structure_witness :
    (("user" : String) ≠ "system") ∧
    ((estimateTokens
        (mkAllMessages "" [] { role := "user", content := "abcd" }) : Int)
      + 1998 + 50 > modelMaxContext) ∧
    (("system" : String) = "system") ∧
    (("user" : String) ≠ "system") ∧
    ((estimateTokens
        [{ role := "system", content := "" }, { role := "user", content := "abcd" },
          { role := "assistant", content := "xy" }] : Int)
      + 1998 + 50 > modelMaxContext) ∧
    (([{ role := "assistant", content := "xy" }] : List Message) ≠ []) ∧
    (((mediate "" [] { role := "user", content := "abcd" } 1998).messagesToSend.head?
        = (mkAllMessages "" [] { role := "user", content := "abcd" }).head?
      ↔ (mkAllMessages "" [] { role := "user", content := "abcd" }).head?.map
          Message.role = some "system")
    ∧ initialKept (mkAllMessages "" [] { role := "user", content := "abcd" })
        = { role := "system", content := "" } ::
            takeLast
              (min 10 ((mkAllMessages "" [] { role := "user", content := "abcd" }).length - 1))
              ((mkAllMessages "" [] { role := "user", content := "abcd" }).filter
                (fun m => m.role != "system"))
    ∧ dropLoop 1998
          [{ role := "system", content := "" }, { role := "user", content := "abcd" },
            { role := "assistant", content := "xy" }]
        = dropLoop 1998
            [{ role := "system", content := "" }, { role := "assistant", content := "xy" }]
    ∧ ([{ role := "system", content := "" }, { role := "user", content := "abcd" },
          { role := "assistant", content := "xy" }] : List Message).find?
          (fun m => m.role != "system")
        = some { role := "user", content := "abcd" }) :=
  ⟨by decide, by decide, rfl, by decide, by decide, by decide,
    truncation_path_structure "" [] { role := "user", content := "abcd" } 1998
      { role := "system", content := "" } { role := "user", content := "abcd" }
      [{ role := "assistant", content := "xy" }]
      (by decide) (by decide) rfl (by decide) (by decide) (by decide)⟩

/-- Claim C4, counterexample: with an empty system prompt, no history, the
user message `hi` and requested `max_tokens = 1900`, the claimed budget
`R = min(1900, floor(2048/2)) = 1024` satisfies
`input_tokens + R + 50 ≤ 2048`, so the claim demands `max_tokens = 1024`;
the code forwards `max_tokens = 1900`. -/
theorem effective_budget_cap_counterexample :
    (estimateTokens (mkAllMessages "" [] { role := "user", content := "hi" }) : Int)
        + effectiveBudgetSpec 1900 modelMaxContext + 50 ≤ modelMaxContext ∧
    effectiveBudgetSpec 1900 modelMaxContext = 1024 ∧
    (mediate "" [] { role := "user", content := "hi" } 1900).maxTokensSent = 1900 ∧
    (1900 : Int) ≠ 1024 := by decide

/-- Claim C4, amended: the effective budget is the requested `max_tokens`
itself, with no `floor(W/2)` cap, and `B = 50`; whenever
`input_tokens + max_tokens + 50 ≤ W` the message list is forwarded
unchanged with `max_tokens` sent exactly as requested. -/
theorem forward_unchanged_when_within_budget (sp : String)
    (ms : List Message) (um : Message) (R : Int)
    (h : (estimateTokens (mkAllMessages sp ms um) : Int) + R + 50
      ≤ modelMaxContext) :
    (mediate sp ms um R).messagesToSend = mkAllMessages sp ms um ∧
    (mediate sp ms um R).maxTokensSent = R := by
  unfold mediate
  dsimp only
  rw [if_neg (by omega)]
  refine ⟨rfl, ?_⟩
  dsimp only
  omega

/-- Claim C4, witness: the amended theorem applied to a concrete
within-budget request. -/
theorem forward_unchanged_when_within_budget_witness :
    ((estimateTokens
        (mkAllMessages "" [] { role := "user", content := "hi" }) : Int)
      + 512 + 50 ≤ modelMaxContext) ∧
    ((mediate "" [] { role := "user", content := "hi" } 512).messagesToSend
        = mkAllMessages "" [] { role := "user", content := "hi" } ∧
      (mediate "" [] { role := "user", content := "hi" } 512).maxTokensSent = 512) :=
  ⟨by decide,
    forward_unchanged_when_within_budget "" [] { role := "user", content := "hi" }
      512 (by decide)⟩

/-- Claim C5, counterexample: a single user message of 8000 characters
(2000 estimated tokens) overflows the window; the claim says the budget is
shrunk to `max(64, 2048 - 2000 - 50) = 64` and the request rejected with
413 when negative, but the code sends the request with
`max_tokens = min(512, 2048 - 2000 - 50) = -2`. -/
theorem overflow_shrink_counterexample :
    (mediate "" [] { role := "user", content := mkContent 8000 } 512).maxTokensSent
      = -2 ∧
    shrunkBudgetSpec modelMaxContext 2000 50 = 64 ∧
    estimateTokens
        (mediate "" [] { role := "user", content := mkContent 8000 } 512).messagesToSend
      = 2000 ∧
    (-2 : Int) ≠ 64 := by
  have hest : estimateTokens
      [{ role := "system", content := "" }, { role := "user", content := mkContent 8000 }]
      = 2000 := by
    simp [estimateTokens, length_mkContent]
  have hall : mkAllMessages "" [] { role := "user", content := mkContent 8000 }
      = [{ role := "system", content := "" },
          { role := "user", content := mkContent 8000 }] := rfl
  have hkept : initialKept
      [{ role := "system", content := "" }, { role := "user", content := mkContent 8000 }]
      = [{ role := "system", content := "" },
          { role := "user", content := mkContent 8000 }] := by
    simp [initialKept, takeLast]
  have hloop : dropLoop 512
      [{ role := "system", content := "" }, { role := "user", content := mkContent 8000 }]
      = [{ role := "system", content := "" },
          { role := "user", content := mkContent 8000 }] := by
    rw [dropLoop, dif_neg]
    simp
  have hmed : mediate "" [] { role := "user", content := mkContent 8000 } 512 =
      { messagesToSend :=
          [{ role := "system", content := "" },
            { role := "user", content := mkContent 8000 }],
        maxTokensSent := -2,
        contextTruncated := true } := by
    unfold mediate
    dsimp only
    rw [hall, hest, if_pos (by decide), hkept, hloop, hest]
    norm_num
    decide
  rw [hmed]
  exact ⟨rfl, by decide, hest, by decide⟩

/-- Claim C5, amended: when even the minimal kept set exceeds the budget,
the code shrinks the sent `max_tokens` to
`min(max_tokens, W - input_tokens - 50)` with no 64-token floor; the value
may be negative, no 413 rejection exists on this path, and a request is
produced regardless.  The equation below holds for every mediated
request. -/
theorem safe_max_tokens_formula (sp : String) (ms : List Message)
    (um : Message) (R : Int) :
    (mediate sp ms um R).maxTokensSent =
      min R (modelMaxContext
        - (estimateTokens (mediate sp ms um R).messagesToSend : Int) - 50) := by
  unfold mediate
  dsimp only
  split <;> rfl

/-- Claim C6: the key-listing display of `ApiKeyManager.jsx` renders
`entry.full_key` in full once its visibility is toggled on, although the
claim (and the component's own success message) says the full key is never
shown after creation and at most the first-8-character prefix is revealed.
The rendered text below is the entire 21-character key, not the masked
prefix. -/
theorem full_key_revealed_in_listing :
    displayedKeyText ["sk_1234567890abcdefgh"]
        { full_key := "sk_1234567890abcdefgh", key := "", name := "prod" }
      = "sk_1234567890abcdefgh" ∧
    ("sk_1234567890abcdefgh" : String) ≠ maskKey "sk_1234567890abcdefgh" ∧
    ("sk_1234567890abcdefgh" : String).length > 8 := by decide

/-- Claim C7, counterexample: a record with status `stopped` whose
container is not running is deleted by the stale-entry cleanup, although
the claim says only `running` or `deploying` records are deleted and
stopped records survive. -/
theorem stopped_record_deleted_counterexample :
    (⟨"b", "stopped"⟩ : StoreEntry)
      ∈ reconcileDeletes ["MIND_MODEL_a"] [⟨"b", "stopped"⟩] ∧
    ("stopped" : String) ≠ "running" ∧ ("stopped" : String) ≠ "deploying" := by
  decide

/-- Claim C7, amended: a reconciliation pass deletes exactly the records
whose `MIND_MODEL_{abbr}` container is not among the running containers
(all records when none is running), irrespective of their status; the
script checks no status and holds no per-abbr lock. -/
theorem reconcile_deletes_iff_container_absent (running : List String)
    (stored : List StoreEntry) (e : StoreEntry) :
    e ∈ reconcileDeletes running stored ↔
      e ∈ stored ∧ (running = [] ∨ containerNameOf e.abbr ∉ running) := by
  unfold reconcileDeletes
  by_cases h : running = []
  · subst h; simp
  · rw [if_neg (by simpa using h)]
    simp [List.mem_filter, h]

/-- Claim C8: for every model among the running ones, the generated include
file contains exactly two location blocks for it: the exact-match
`/api/v1/{abbr}/chat/completions` block proxied to the orchestrator's
context-mediated endpoint and the `/api/v1/{abbr}/` block proxied to the
model's container on its inference port 8000 with the `/v1/` rewrite, both
with 300 s read and send timeouts. -/
theorem nginx_two_location_blocks (running : List String) (abbr : String)
    (h1 : abbr ∈ running) (h2 : running.Nodup) :
    (generateRoutes running).filter (fun b => b.modelAbbr == abbr)
      = [chatLocationBlock abbr, engineLocationBlock abbr] ∧
    (chatLocationBlock abbr).path = "/api/v1/" ++ abbr ++ "/chat/completions" ∧
    (chatLocationBlock abbr).proxyPass
      = "http://orchestrator/api/v1/" ++ abbr ++ "/chat/completions" ∧
    (chatLocationBlock abbr).readTimeoutSecs = 300 ∧
    (chatLocationBlock abbr).sendTimeoutSecs = 300 ∧
    (engineLocationBlock abbr).path = "/api/v1/" ++ abbr ++ "/" ∧
    (engineLocationBlock abbr).proxyPass
      = "http://" ++ containerNameOf abbr ++ ":8000/v1/" ∧
    (engineLocationBlock abbr).readTimeoutSecs = 300 ∧
    (engineLocationBlock abbr).sendTimeoutSecs = 300 := by
  refine ⟨?_, rfl, rfl, rfl, rfl, rfl, rfl, rfl, rfl⟩
  induction running with
  | nil => cases h1
  | cons x xs ih =>
    rcases List.nodup_cons.mp h2 with ⟨hx, hxs⟩
    rcases List.mem_cons.mp h1 with he | hm
    · subst he
      rw [generateRoutes_cons, List.filter_append,
        generateRoutes_filter_nil abbr xs hx]
      simp [modelRouteBlocks, chatLocationBlock, engineLocationBlock,
        List.filter_cons]
    · have hxa : x ≠ abbr := fun e => hx (e ▸ hm)
      rw [generateRoutes_cons, List.filter_append, ih hm hxs]
      simp [modelRouteBlocks, chatLocationBlock, engineLocationBlock,
        List.filter_cons, hxa]

/-- Claim C8, witness: the routing theorem applied to two concrete running
models. -/
theorem nginx_two_location_blocks_witness :
    (("alpha" : String) ∈ (["alpha", "beta"] : List String)) ∧
    (["alpha", "beta"] : List String).Nodup ∧
    ((generateRoutes ["alpha", "beta"]).filter (fun b => b.modelAbbr == "alpha")
        = [chatLocationBlock "alpha", engineLocationBlock "alpha"] ∧
      (chatLocationBlock "alpha").path = "/api/v1/" ++ "alpha" ++ "/chat/completions" ∧
      (chatLocationBlock "alpha").proxyPass
        = "http://orchestrator/api/v1/" ++ "alpha" ++ "/chat/completions" ∧
      (chatLocationBlock "alpha").readTimeoutSecs = 300 ∧
      (chatLocationBlock "alpha").sendTimeoutSecs = 300 ∧
      (engineLocationBlock "alpha").path = "/api/v1/" ++ "alpha" ++ "/" ∧
      (engineLocationBlock "alpha").proxyPass
        = "http://" ++ containerNameOf "alpha" ++ ":8000/v1/" ∧
      (engineLocationBlock "alpha").readTimeoutSecs = 300 ∧
      (engineLocationBlock "alpha").sendTimeoutSecs = 300) :=
  ⟨by decide, by decide,
    nginx_two_location_blocks ["alpha", "beta"] "alpha" (by decide) (by decide)⟩

/-- Claim C9, counterexample: a running container whose abbr `x` is absent
from the catalog is still reconciled (a record is upserted) when its model
name matches a catalog entry's name, so absence of the abbr alone does not
make the type resolve to `unknown`. -/
theorem catalog_name_fallback_counterexample :
    ("x" ∉ ([⟨"q", "Qwen", "llm"⟩] : List CatalogEntry).map CatalogEntry.abbr) ∧
    reconcileContainer [⟨"q", "Qwen", "llm"⟩] "x" "Qwen" ≠ none := by decide

/-- Claim C9, amended: the reconciler skips a running container (no record
upserted) exactly when its type resolves to `unknown`, which happens
precisely when no catalog entry matches its abbr and none matches its
(nonempty) model name. -/
theorem reconcile_skips_iff_unknown_type (catalog : List CatalogEntry)
    (abbr modelName : String)
    (hcat : ∀ m ∈ catalog, m.mtype ≠ "unknown") :
    reconcileContainer catalog abbr modelName = none ↔
      ∀ m ∈ catalog, m.abbr ≠ abbr ∧ (modelName = "" ∨ m.name ≠ modelName) := by
  rw [← lookup_unknown_iff catalog abbr modelName hcat]
  unfold reconcileContainer
  dsimp only
  by_cases h : (lookupModelInfo catalog abbr modelName).2 = "unknown"
  · rw [if_pos (by simpa using h)]
    simp [h]
  · rw [if_neg (by simpa using h)]
    simp [h]

/-- Claim C9, witness: the amended theorem applied to a concrete catalog
and an unknown container, which is indeed skipped. -/
theorem reconcile_skips_iff_unknown_type_witness :
    (∀ m ∈ ([⟨"q", "Qwen", "llm"⟩] : List CatalogEntry), m.mtype ≠ "unknown") ∧
    reconcileContainer [⟨"q", "Qwen", "llm"⟩] "x" "" = none :=
  ⟨by decide,
    (reconcile_skips_iff_unknown_type [⟨"q", "Qwen", "llm"⟩] "x" ""
      (by decide)).mpr (by decide)⟩

/-- Claim C10: the truncation loop terminates; each iteration removes
exactly one message (the final length is the initial length minus the
iteration count) and, since the loop requires more than two messages to
remain, it runs at most `len(messages) - 2` iterations. -/
theorem truncation_loop_iteration_bound (R : Int) (msgs : List Message) :
    dropLoopCount R msgs ≤ msgs.length - 2 ∧
      (dropLoop R msgs).length = msgs.length - dropLoopCount R msgs := by
  induction msgs using dropLoop.induct R with
  | case1 msgs h ih =>
      have hlen := length_eraseIdx_one msgs h.2
      rw [dropLoop, dif_pos h, dropLoopCount, dif_pos h]
      omega
  | case2 msgs h =>
      rw [dropLoop, dif_neg h, dropLoopCount, dif_neg h]
      omega
